import Mathlib

/-!
Shallow embedding of the order/inventory backend
(`src/backend/app/services/order_service.py` and the data model in
`src/backend/app/models/`).  Machine integers of the source are unbounded
Python integers, embedded as `Int` (ids as `Nat`, matching autoincrement
primary keys); the fixed-scale `Numeric(10,2)` prices are embedded as
integer cents (the source never does arithmetic on them, only copies).
The database session is an explicit state record; SQLAlchemy raises are
`Except`-style error results paired with the session state at the moment
of the raise, so that "no partial effects" is a provable property of the
embedded control flow rather than an assumption.
-/

set_option autoImplicit false

namespace OrderApp

/-- Embedding of `app.models.enums.OrderStatus` (`pending` / `shipped` / `cancelled`). -/
inductive OrderStatus where
  | pending
  | shipped
  | cancelled
  deriving DecidableEq

/-- Embedding of `OrderStatus.value` — the string stored in the `orders.status` column. -/
def OrderStatus.value : OrderStatus → String
  | .pending => "pending"
  | .shipped => "shipped"
  | .cancelled => "cancelled"

/-- The `OrderStatus(str)` enum constructor: succeeds exactly on the three
recognized strings, otherwise (Python `ValueError`) returns `none`. -/
def parseStatus : String → Option OrderStatus
  | "pending" => some .pending
  | "shipped" => some .shipped
  | "cancelled" => some .cancelled
  | _ => none

/-- Embedding of `app.models.product.Product`: one row of the `products` table. -/
structure Product where
  id : Nat
  name : String
  price : Int
  stock_quantity : Int
  deriving DecidableEq

/-- Embedding of `app.models.order.Order`: one row of the `orders` table (the
`created_at` server timestamp is outside the pure model). -/
structure Order where
  id : Nat
  status : String
  deriving DecidableEq

/-- Embedding of `app.models.order.OrderItem`: one row of the `order_items` table
(the autoincrement `id` column is left implicit: a row is one list entry). -/
structure OrderItem where
  order_id : Nat
  product_id : Nat
  quantity : Int
  price_at_order : Int
  deriving DecidableEq

/-- The database session state: the three tables plus the autoincrement
counter that `db.flush()` consults for the id of the new order. -/
structure DBState where
  products : List Product
  orders : List Order
  orderItems : List OrderItem
  nextOrderId : Nat
  deriving DecidableEq

/-- Embedding of `app.schemas.order.OrderItemCreate` (one input line). -/
structure OrderItemCreate where
  product_id : Nat
  quantity : Int
  deriving DecidableEq

/-- Embedding of `app.schemas.order.OrderCreate` (the request body). -/
structure OrderCreate where
  items : List OrderItemCreate
  deriving DecidableEq

/-- The pydantic field validators on `OrderItemCreate`
(`product_id: gt=0`, `quantity: gt=0`). -/
def validOrderItemCreate (i : OrderItemCreate) : Bool :=
  decide (0 < i.product_id) && decide (0 < i.quantity)

/-- The pydantic validators on `OrderCreate`
(`items: min_length=1` and each item valid). -/
def validOrderCreate (oc : OrderCreate) : Bool :=
  decide (1 ≤ oc.items.length) && oc.items.all validOrderItemCreate

/-- The typed failures of `app.exceptions` raised by the order service. -/
inductive OrderError where
  | productNotFound (product_id : Nat)
  | insufficientStock (product_id : Nat) (available requested : Int)
  | orderNotFound (order_id : Nat)
  | invalidStatusTransition (current_status new_status : String)
  deriving DecidableEq

/-- Embedding of `VALID_TRANSITIONS` of `order_service.py`: the status state machine.
`shipped` and `cancelled` are terminal. -/
def VALID_TRANSITIONS : OrderStatus → List OrderStatus
  | .pending => [.shipped, .cancelled]
  | .shipped => []
  | .cancelled => []

/-- One fold step of the `product_quantities` aggregation loop of
`create_order` (lines 56–61): a Python dict update, insertion-ordered. -/
def aggStep (acc : List (Nat × Int)) (item : OrderItemCreate) : List (Nat × Int) :=
  if acc.any (fun e => e.1 == item.product_id) then
    acc.map (fun e => if e.1 == item.product_id then (e.1, e.2 + item.quantity) else e)
  else
    acc ++ [(item.product_id, item.quantity)]

/-- Embedding of `product_quantities`: requested quantities aggregated by product id,
as an insertion-ordered association list (a Python dict). -/
def product_quantities (items : List OrderItemCreate) : List (Nat × Int) :=
  items.foldl aggStep []

/-- Embedding of `product_ids = list(product_quantities.keys())` (line 63). -/
def product_ids (items : List OrderItemCreate) : List Nat :=
  (product_quantities items).map Prod.fst

/-- The `SELECT ... WHERE id IN product_ids FOR UPDATE` locked read
(lines 67–74): the referenced product rows, as stored. -/
def lockProducts (s : DBState) (ids : List Nat) : List Product :=
  s.products.filter (fun p => ids.contains p.id)

/-- Row lookup by product id (the `products` dict of line 74). -/
def findProduct (ps : List Product) (pid : Nat) : Option Product :=
  ps.find? (fun p => p.id == pid)

/-- The existence-validation loop (lines 77–79): the first referenced id
with no product row, if any. -/
def firstMissing (ps : List Product) (ids : List Nat) : Option Nat :=
  ids.find? (fun pid => (findProduct ps pid).isNone)

/-- The stock-validation loop (lines 83–90): first aggregated line whose
locked stock of the product is below the aggregated requested quantity.  The
`none` fallback of the lookup is unreachable: existence was validated
first. -/
def stockCheck (ps : List Product) : List (Nat × Int) → Option OrderError
  | [] => none
  | (pid, qty) :: rest =>
    match findProduct ps pid with
    | none => stockCheck ps rest
    | some p =>
      if p.stock_quantity < qty then
        some (.insufficientStock pid p.stock_quantity qty)
      else
        stockCheck ps rest

/-- Embedding of `product.stock_quantity -= qty` on the session: the ORM object with
this id is mutated in place. -/
def decrementStock (ps : List Product) (pid : Nat) (qty : Int) : List Product :=
  ps.map (fun p =>
    if p.id == pid then { p with stock_quantity := p.stock_quantity - qty } else p)

/-- The item-creation loop of `create_order` (lines 98–111): per original
input line, decrement the stock of the product by the line quantity and add an
`OrderItem` capturing `product.price` as read from the session.  The
`none` branch is unreachable after existence validation. -/
def applyItems (oid : Nat) (s : DBState) : List OrderItemCreate → DBState
  | [] => s
  | item :: rest =>
    match findProduct s.products item.product_id with
    | none => applyItems oid s rest
    | some p =>
      applyItems oid
        { s with
          products := decrementStock s.products item.product_id item.quantity,
          orderItems := s.orderItems ++
            [{ order_id := oid, product_id := item.product_id,
               quantity := item.quantity, price_at_order := p.price }] }
        rest

/-- Embedding of `OrderService.create_order` (lines 32–116).  Returns the session state
paired with the result; every `raise` returns the session state exactly as
it was at the raise, so the pair records whether any partial effect
happened before an error. -/
def create_order (s : DBState) (input : OrderCreate) :
    DBState × Except OrderError Order :=
  match firstMissing (lockProducts s (product_ids input.items)) (product_ids input.items) with
  | some pid => (s, .error (.productNotFound pid))
  | none =>
    match stockCheck (lockProducts s (product_ids input.items))
        (product_quantities input.items) with
    | some e => (s, .error e)
    | none =>
      (applyItems s.nextOrderId
        { s with
          orders := s.orders ++ [{ id := s.nextOrderId, status := OrderStatus.pending.value }],
          nextOrderId := s.nextOrderId + 1 }
        input.items,
       .ok { id := s.nextOrderId, status := OrderStatus.pending.value })

/-- Embedding of `OrderService.update_order_status` (lines 147–193): look up the order,
coerce an unrecognized stored status to `pending` (the
`except ValueError` branch), check the transition table, and persist. -/
def update_order_status (s : DBState) (order_id : Nat) (new_status : OrderStatus) :
    DBState × Except OrderError Order :=
  match s.orders.find? (fun o => o.id == order_id) with
  | none => (s, .error (.orderNotFound order_id))
  | some order =>
    let current_status := (parseStatus order.status).getD OrderStatus.pending
    if new_status ∈ VALID_TRANSITIONS current_status then
      let updated : Order := { order with status := new_status.value }
      let newOrders := s.orders.map
        (fun o => if o.id == order_id then { o with status := new_status.value } else o)
      ({ s with orders := newOrders }, .ok updated)
    else
      (s, .error (.invalidStatusTransition order.status new_status.value))

/-- The claim-side aggregated requested quantity of a product over the
input lines (the sum of `quantity` over lines naming `pid`). -/
def requestedQty (pid : Nat) : List OrderItemCreate → Int
  | [] => 0
  | i :: rest => (if i.product_id = pid then i.quantity else 0) + requestedQty pid rest

/-- Stock of the product with the given id, if present. -/
def stockOf (ps : List Product) (pid : Nat) : Option Int :=
  (findProduct ps pid).map (fun p => p.stock_quantity)

/-- Price of the product with the given id, if present. -/
def priceOf (ps : List Product) (pid : Nat) : Option Int :=
  (findProduct ps pid).map (fun p => p.price)

/-- Quantity stored for a product id in an aggregated association list
(`0` when absent, matching a missed dict lookup contributing nothing). -/
def lookupQty (pq : List (Nat × Int)) (pid : Nat) : Int :=
  (((pq.find? (fun e => e.1 == pid))).map Prod.snd).getD 0

/-- Reinterpret an aggregated association list as input lines, one line
per distinct product. -/
def pqToItems (pq : List (Nat × Int)) : List OrderItemCreate :=
  pq.map (fun e => { product_id := e.1, quantity := e.2 })

/-- The input obtained by replacing the lines with one line per distinct
product carrying the summed quantity. -/
def aggregatedInput (input : OrderCreate) : OrderCreate :=
  { items := pqToItems (product_quantities input.items) }

/-- The order-item rows the creation loop adds for the given input lines,
expressed against a fixed product table (prices are never changed by the
loop, so the table read is the locked read). -/
def mkItems (oid : Nat) (ps : List Product) : List OrderItemCreate → List OrderItem
  | [] => []
  | i :: rest =>
    match findProduct ps i.product_id with
    | none => mkItems oid ps rest
    | some p =>
      { order_id := oid, product_id := i.product_id,
        quantity := i.quantity, price_at_order := p.price } :: mkItems oid ps rest

/-- A one-line order: quantity 1 of a single product. -/
def singleItemOrder (pid : Nat) : OrderCreate :=
  { items := [{ product_id := pid, quantity := 1 }] }

/-- Tally of a batch of `create_order` calls: final session state, number
of successes, number of `InsufficientStock` failures, number of other
failures. -/
structure RunResult where
  state : DBState
  ok : Nat
  insufficient : Nat
  other : Nat
  deriving DecidableEq

/-- Serial batch of `n` `create_order` calls, each for quantity 1 of product `pid`,
executed in sequence.  Under the `SELECT ... FOR UPDATE` row locks each
validate-and-decrement section of each call is mutually exclusive with
the others, so any concurrent schedule of the calls is equivalent to some
serial order; the serial execution is the model of the concurrent one. -/
def runConcurrent (pid : Nat) : Nat → DBState → RunResult
  | 0, s => ⟨s, 0, 0, 0⟩
  | n + 1, s =>
    match create_order s (singleItemOrder pid) with
    | (s', .ok _) =>
      let r := runConcurrent pid n s'
      { r with ok := r.ok + 1 }
    | (s', .error (.insufficientStock _ _ _)) =>
      let r := runConcurrent pid n s'
      { r with insufficient := r.insufficient + 1 }
    | (s', .error _) =>
      let r := runConcurrent pid n s'
      { r with other := r.other + 1 }

/-- A session whose product table is a single product row. -/
def singleProductState (pid : Nat) (nm : String) (pr : Int) (stock : Int) : DBState :=
  { products := [{ id := pid, name := nm, price := pr, stock_quantity := stock }],
    orders := [], orderItems := [], nextOrderId := 1 }

/-! ### Generic list lemmas -/

theorem find?_map_of_key {α : Type} (f : α → α) (p : α → Bool)
    (hf : ∀ a, p (f a) = p a) (l : List α) :
    (l.map f).find? p = (l.find? p).map f := by
  rw [List.find?_map]
  have hpf : p ∘ f = p := funext hf
  rw [hpf]

/-! ### Product-table lemmas -/

theorem findProduct_id {ps : List Product} {pid : Nat} {p : Product}
    (h : findProduct ps pid = some p) : p.id = pid := by
  have := List.find?_some h
  simpa using this

theorem findProduct_decrementStock (ps : List Product) (pid : Nat) (qty : Int) (x : Nat) :
    findProduct (decrementStock ps pid qty) x =
      (findProduct ps x).map (fun p =>
        if p.id == pid then { p with stock_quantity := p.stock_quantity - qty } else p) := by
  unfold findProduct decrementStock
  apply find?_map_of_key
  intro a
  by_cases h : a.id == pid <;> simp [h]

theorem findProduct_decrementStock_isSome (ps : List Product) (pid : Nat) (qty : Int)
    (x : Nat) :
    (findProduct (decrementStock ps pid qty) x).isSome = (findProduct ps x).isSome := by
  rw [findProduct_decrementStock]
  cases findProduct ps x <;> rfl

theorem stockOf_decrementStock (ps : List Product) (pid : Nat) (qty : Int) (x : Nat) :
    stockOf (decrementStock ps pid qty) x =
      (stockOf ps x).map (fun v => if x = pid then v - qty else v) := by
  unfold stockOf
  rw [findProduct_decrementStock]
  cases h : findProduct ps x with
  | none => rfl
  | some p =>
    have hid : p.id = x := findProduct_id h
    by_cases hx : x = pid
    · subst hx
      simp [hid]
    · simp [hid, hx]

theorem mkItems_decrementStock (oid : Nat) (ps : List Product) (pid : Nat) (qty : Int)
    (items : List OrderItemCreate) :
    mkItems oid (decrementStock ps pid qty) items = mkItems oid ps items := by
  induction items with
  | nil => rfl
  | cons i rest ih =>
    unfold mkItems
    rw [findProduct_decrementStock]
    cases findProduct ps i.product_id with
    | none => simpa using ih
    | some p =>
      simp only [Option.map_some']
      split <;> simp [ih]

/-! ### Item-creation loop lemmas -/

theorem applyItems_orders (oid : Nat) (items : List OrderItemCreate) :
    ∀ s : DBState, (applyItems oid s items).orders = s.orders := by
  induction items with
  | nil => intro s; rfl
  | cons i rest ih =>
    intro s
    unfold applyItems
    cases findProduct s.products i.product_id with
    | none => exact ih s
    | some p => exact ih _

theorem applyItems_nextOrderId (oid : Nat) (items : List OrderItemCreate) :
    ∀ s : DBState, (applyItems oid s items).nextOrderId = s.nextOrderId := by
  induction items with
  | nil => intro s; rfl
  | cons i rest ih =>
    intro s
    unfold applyItems
    cases findProduct s.products i.product_id with
    | none => exact ih s
    | some p => exact ih _

theorem applyItems_orderItems (oid : Nat) (items : List OrderItemCreate) :
    ∀ s : DBState,
      (applyItems oid s items).orderItems = s.orderItems ++ mkItems oid s.products items := by
  induction items with
  | nil => intro s; simp [applyItems, mkItems]
  | cons i rest ih =>
    intro s
    unfold applyItems mkItems
    cases h : findProduct s.products i.product_id with
    | none => exact ih s
    | some p =>
      rw [ih]
      simp [mkItems_decrementStock, List.append_assoc]

theorem requestedQty_cons (pid : Nat) (i : OrderItemCreate) (rest : List OrderItemCreate) :
    requestedQty pid (i :: rest) =
      (if i.product_id = pid then i.quantity else 0) + requestedQty pid rest := rfl

theorem applyItems_stockOf (oid : Nat) (items : List OrderItemCreate) :
    ∀ s : DBState,
      (∀ i ∈ items, (findProduct s.products i.product_id).isSome = true) →
      ∀ pid, stockOf (applyItems oid s items).products pid =
        (stockOf s.products pid).map (fun v => v - requestedQty pid items) := by
  induction items with
  | nil =>
    intro s _ pid
    cases h : stockOf s.products pid <;> simp [applyItems, requestedQty, h]
  | cons i rest ih =>
    intro s hpres pid
    unfold applyItems
    cases h : findProduct s.products i.product_id with
    | none =>
      exfalso
      have := hpres i (by simp)
      rw [h] at this
      simp at this
    | some p =>
      have hrest : ∀ j ∈ rest,
          (findProduct (decrementStock s.products i.product_id i.quantity) j.product_id).isSome
            = true := by
        intro j hj
        rw [findProduct_decrementStock_isSome]
        exact hpres j (by simp [hj])
      rw [ih ({ s with
          products := decrementStock s.products i.product_id i.quantity,
          orderItems := s.orderItems ++
            [{ order_id := oid, product_id := i.product_id,
               quantity := i.quantity, price_at_order := p.price }] }) hrest pid]
      show (stockOf (decrementStock s.products i.product_id i.quantity) pid).map
        (fun v => v - requestedQty pid rest) = _
      rw [stockOf_decrementStock]
      cases hs : stockOf s.products pid with
      | none => rfl
      | some v =>
        simp only [hs, Option.map_some', requestedQty_cons]
        by_cases hx : pid = i.product_id
        · subst hx
          simp [sub_sub]
        · have hxx : ¬ (i.product_id = pid) := fun hh => hx hh.symm
          simp [hx, hxx]

/-! ### Aggregation (dict) lemmas -/

theorem lookupQty_nil (pid : Nat) : lookupQty [] pid = 0 := rfl

theorem lookupQty_cons (e : Nat × Int) (rest : List (Nat × Int)) (pid : Nat) :
    lookupQty (e :: rest) pid = if e.1 = pid then e.2 else lookupQty rest pid := by
  unfold lookupQty
  rw [List.find?_cons]
  by_cases h : e.1 = pid
  · simp [h]
  · have hb : (e.1 == pid) = false := by simp [h]
    simp [h, hb]

theorem keys_map_key_preserving (acc : List (Nat × Int)) (f : Nat × Int → Nat × Int)
    (hf : ∀ e, (f e).1 = e.1) : (acc.map f).map Prod.fst = acc.map Prod.fst := by
  rw [List.map_map]
  exact List.map_congr_left (fun e _ => hf e)

theorem lookupQty_aggStep (acc : List (Nat × Int)) (i : OrderItemCreate) (pid : Nat) :
    lookupQty (aggStep acc i) pid =
      lookupQty acc pid + (if i.product_id = pid then i.quantity else 0) := by
  unfold aggStep
  by_cases hany : acc.any (fun e => e.1 == i.product_id) = true
  · simp only [hany, if_true]
    unfold lookupQty
    rw [find?_map_of_key _ _ (fun e => by by_cases he : e.1 == i.product_id <;> simp [he])]
    cases hf : acc.find? (fun e => e.1 == pid) with
    | none =>
      by_cases hip : i.product_id = pid
      · exfalso
        obtain ⟨e, he, hek⟩ := List.any_eq_true.mp hany
        have : ¬ ((fun e : Nat × Int => e.1 == pid) e = true) :=
          List.find?_eq_none.mp hf e he
        exact this (by simp at hek ⊢; omega)
      · simp [hip]
    | some e =>
      have hek : e.1 = pid := by have := List.find?_some hf; simpa using this
      by_cases hip : i.product_id = pid
      · have hb : (e.1 == i.product_id) = true := by simp [hek, hip]
        simp [hb, hip, hek]
      · have hne : ¬ (e.1 = i.product_id) := by
          rw [hek]
          exact fun hh => hip hh.symm
        simp [hne, hip]
  · simp only [eq_false_of_ne_true hany, Bool.false_eq_true, if_false]
    unfold lookupQty
    rw [List.find?_append]
    cases hf : acc.find? (fun e => e.1 == pid) with
    | none =>
      by_cases hip : i.product_id = pid
      · simp [List.find?, hip]
      · have hb : (i.product_id == pid) = false := by simp [hip]
        simp [List.find?, hb, hip]
    | some e =>
      have hemem := List.mem_of_find?_eq_some hf
      have hek : e.1 = pid := by have := List.find?_some hf; simpa using this
      by_cases hip : i.product_id = pid
      · exfalso
        have : ¬ ((fun x : Nat × Int => x.1 == i.product_id) e = true) :=
          (List.any_eq_false.mp (eq_false_of_ne_true hany)) e hemem
        exact this (by simp [hek, hip])
      · simp [Option.or, hip]

theorem lookupQty_foldl (pid : Nat) (items : List OrderItemCreate) :
    ∀ acc, lookupQty (List.foldl aggStep acc items) pid =
      lookupQty acc pid + requestedQty pid items := by
  induction items with
  | nil => intro acc; simp [requestedQty]
  | cons i rest ih =>
    intro acc
    rw [List.foldl_cons, ih, lookupQty_aggStep, requestedQty_cons]
    ring

theorem lookupQty_product_quantities (pid : Nat) (items : List OrderItemCreate) :
    lookupQty (product_quantities items) pid = requestedQty pid items := by
  unfold product_quantities
  rw [lookupQty_foldl]
  simp [lookupQty_nil]

theorem mem_keys_aggStep (acc : List (Nat × Int)) (i : OrderItemCreate) (x : Nat) :
    x ∈ (aggStep acc i).map Prod.fst ↔ x ∈ acc.map Prod.fst ∨ x = i.product_id := by
  unfold aggStep
  by_cases hany : acc.any (fun e => e.1 == i.product_id) = true
  · simp only [hany, if_true]
    rw [keys_map_key_preserving _ _ (fun e => by by_cases he : e.1 == i.product_id <;> simp [he])]
    constructor
    · exact Or.inl
    · rintro (hx | hx)
      · exact hx
      · obtain ⟨e, he, hek⟩ := List.any_eq_true.mp hany
        have hex : e.1 = i.product_id := by simpa using hek
        rw [hx, ← hex]
        exact List.mem_map_of_mem Prod.fst he
  · simp only [eq_false_of_ne_true hany, Bool.false_eq_true, if_false]
    simp

theorem mem_keys_foldl (x : Nat) (items : List OrderItemCreate) :
    ∀ acc, x ∈ (List.foldl aggStep acc items).map Prod.fst ↔
      x ∈ acc.map Prod.fst ∨ x ∈ items.map (fun i => i.product_id) := by
  induction items with
  | nil => intro acc; simp
  | cons i rest ih =>
    intro acc
    rw [List.foldl_cons, ih, mem_keys_aggStep]
    simp
    tauto

theorem mem_product_ids (x : Nat) (items : List OrderItemCreate) :
    x ∈ product_ids items ↔ x ∈ items.map (fun i => i.product_id) := by
  unfold product_ids product_quantities
  rw [mem_keys_foldl]
  simp

theorem nodup_keys_aggStep (acc : List (Nat × Int)) (i : OrderItemCreate)
    (h : (acc.map Prod.fst).Nodup) : ((aggStep acc i).map Prod.fst).Nodup := by
  unfold aggStep
  by_cases hany : acc.any (fun e => e.1 == i.product_id) = true
  · simp only [hany, if_true]
    rw [keys_map_key_preserving _ _ (fun e => by by_cases he : e.1 == i.product_id <;> simp [he])]
    exact h
  · simp only [eq_false_of_ne_true hany, Bool.false_eq_true, if_false]
    rw [List.map_append, List.nodup_append]
    refine ⟨h, by simp, ?_⟩
    intro a ha hb
    have hax : a = i.product_id := by simpa using hb
    subst hax
    obtain ⟨e, he, hek⟩ := List.mem_map.mp ha
    have := (List.any_eq_false.mp (eq_false_of_ne_true hany)) e he
    exact this (by simp [hek])

theorem nodup_keys_foldl (items : List OrderItemCreate) :
    ∀ acc, (acc.map Prod.fst).Nodup → ((List.foldl aggStep acc items).map Prod.fst).Nodup := by
  induction items with
  | nil => intro acc h; exact h
  | cons i rest ih =>
    intro acc h
    rw [List.foldl_cons]
    exact ih _ (nodup_keys_aggStep acc i h)

theorem nodup_product_ids (items : List OrderItemCreate) : (product_ids items).Nodup :=
  nodup_keys_foldl items [] (by simp)

theorem requestedQty_eq_zero_of_not_mem {items : List OrderItemCreate} {pid : Nat}
    (h : pid ∉ items.map (fun i => i.product_id)) : requestedQty pid items = 0 := by
  induction items with
  | nil => rfl
  | cons i rest ih =>
    rw [requestedQty_cons]
    have hi : ¬ (i.product_id = pid) := by
      intro hh
      exact h (by simp [hh])
    rw [if_neg hi, ih (fun hm => h (by simp at hm ⊢; exact Or.inr hm))]
    simp

theorem keys_pqToItems (pq : List (Nat × Int)) :
    (pqToItems pq).map (fun i => i.product_id) = pq.map Prod.fst := by
  unfold pqToItems
  rw [List.map_map]
  rfl

theorem foldl_aggStep_pqToItems (pq : List (Nat × Int)) :
    ∀ acc, (pq.map Prod.fst).Nodup →
      (∀ k ∈ pq.map Prod.fst, k ∉ acc.map Prod.fst) →
      List.foldl aggStep acc (pqToItems pq) = acc ++ pq := by
  induction pq with
  | nil => intro acc _ _; simp [pqToItems]
  | cons e rest ih =>
    intro acc hnd hdisj
    rw [show pqToItems (e :: rest) =
      { product_id := e.1, quantity := e.2 } :: pqToItems rest from rfl, List.foldl_cons]
    have hstep : aggStep acc { product_id := e.1, quantity := e.2 } = acc ++ [(e.1, e.2)] := by
      unfold aggStep
      have hno : acc.any (fun x => x.1 == e.1) = false := by
        rw [List.any_eq_false]
        intro x hx hbe
        exact hdisj e.1 (by simp) (by
          have : x.1 = e.1 := by simpa using hbe
          exact this ▸ List.mem_map_of_mem Prod.fst hx)
      simp [hno]
    rw [hstep, ih (acc ++ [(e.1, e.2)])
      (by
        rw [List.map_cons] at hnd
        exact hnd.of_cons)
      (by
        intro k hk
        rw [List.map_append, List.mem_append]
        rintro (hka | hke)
        · exact hdisj k (by simp [hk]) hka
        · have hke1 : k = e.1 := by simpa using hke
          rw [List.map_cons] at hnd
          exact (List.nodup_cons.mp hnd).1 (hke1 ▸ hk))]
    simp

theorem product_quantities_pqToItems {pq : List (Nat × Int)}
    (hnd : (pq.map Prod.fst).Nodup) : product_quantities (pqToItems pq) = pq := by
  unfold product_quantities
  rw [foldl_aggStep_pqToItems pq [] hnd (by simp)]
  simp

theorem product_quantities_agg_idem (items : List OrderItemCreate) :
    product_quantities (pqToItems (product_quantities items)) = product_quantities items :=
  product_quantities_pqToItems (nodup_product_ids items)

theorem requestedQty_pqToItems {pq : List (Nat × Int)}
    (hnd : (pq.map Prod.fst).Nodup) (pid : Nat) :
    requestedQty pid (pqToItems pq) = lookupQty pq pid := by
  induction pq with
  | nil => simp [pqToItems, requestedQty, lookupQty_nil]
  | cons e rest ih =>
    rw [show pqToItems (e :: rest) =
      { product_id := e.1, quantity := e.2 } :: pqToItems rest from rfl,
      requestedQty_cons, lookupQty_cons]
    rw [List.map_cons] at hnd
    obtain ⟨hnm, hnd'⟩ := List.nodup_cons.mp hnd
    by_cases hip : e.1 = pid
    · rw [if_pos hip, if_pos hip]
      have : requestedQty pid (pqToItems rest) = 0 := by
        apply requestedQty_eq_zero_of_not_mem
        rw [keys_pqToItems]
        exact fun hm => hnm (hip ▸ hm)
      simp [this]
    · rw [if_neg hip, if_neg hip, ih hnd']
      simp

theorem requestedQty_aggregatedInput (input : OrderCreate) (pid : Nat) :
    requestedQty pid (aggregatedInput input).items = requestedQty pid input.items := by
  show requestedQty pid (pqToItems (product_quantities input.items)) = _
  rw [requestedQty_pqToItems (nodup_product_ids input.items), lookupQty_product_quantities]

/-! ### Lock- and validation-phase lemmas -/

theorem findProduct_lockProducts_isSome {s : DBState} {ids : List Nat} {pid : Nat}
    (h : (findProduct (lockProducts s ids) pid).isSome = true) :
    (findProduct s.products pid).isSome = true := by
  unfold findProduct lockProducts at *
  obtain ⟨p, hp, hbe⟩ := List.find?_isSome.mp h
  exact List.find?_isSome.mpr ⟨p, (List.mem_filter.mp hp).1, hbe⟩

theorem success_presence {s : DBState} {items : List OrderItemCreate}
    (h : firstMissing (lockProducts s (product_ids items)) (product_ids items) = none) :
    ∀ i ∈ items, (findProduct s.products i.product_id).isSome = true := by
  intro i hi
  have hmem : i.product_id ∈ product_ids items :=
    (mem_product_ids _ items).mpr (List.mem_map_of_mem _ hi)
  have hnm := List.find?_eq_none.mp h i.product_id hmem
  have hsome :
      (findProduct (lockProducts s (product_ids items)) i.product_id).isSome = true := by
    cases hx : findProduct (lockProducts s (product_ids items)) i.product_id with
    | none => exact absurd (by simp [firstMissing, hx]) hnm
    | some p => rfl
  exact findProduct_lockProducts_isSome hsome

theorem stockCheck_shape {ps : List Product} {pq : List (Nat × Int)} {e : OrderError}
    (h : stockCheck ps pq = some e) :
    ∃ pid a r, e = .insufficientStock pid a r := by
  induction pq with
  | nil => simp [stockCheck] at h
  | cons x rest ih =>
    obtain ⟨pid, qty⟩ := x
    unfold stockCheck at h
    cases hfp : findProduct ps pid with
    | none =>
      rw [hfp] at h
      exact ih h
    | some p =>
      simp only [hfp] at h
      by_cases hlt : p.stock_quantity < qty
      · rw [if_pos hlt] at h
        exact ⟨pid, p.stock_quantity, qty, (Option.some.inj h).symm⟩
      · rw [if_neg hlt] at h
        exact ih h

/-! ### `create_order` characterization lemmas -/

theorem create_order_ok {s s' : DBState} {input : OrderCreate} {o : Order}
    (h : create_order s input = (s', .ok o)) :
    o = { id := s.nextOrderId, status := "pending" }
    ∧ (∀ i ∈ input.items, (findProduct s.products i.product_id).isSome = true)
    ∧ s' = applyItems s.nextOrderId
        { s with
          orders := s.orders ++ [{ id := s.nextOrderId, status := "pending" }],
          nextOrderId := s.nextOrderId + 1 }
        input.items := by
  unfold create_order at h
  split at h
  next pid hmiss => simp at h
  next hmiss =>
    split at h
    next e hsc => simp at h
    next hsc =>
      have h1 := congrArg Prod.fst h
      have h2 := congrArg Prod.snd h
      simp only [Prod.fst, Prod.snd] at h1 h2
      have ho : o = { id := s.nextOrderId, status := "pending" } := by
        have := congrArg (fun r => match r with | .ok v => v | .error _ => o) h2
        simpa using this.symm
      exact ⟨ho, success_presence hmiss, h1.symm⟩

theorem create_order_error_state {s : DBState} {input : OrderCreate} {e : OrderError}
    (h : (create_order s input).2 = .error e) : (create_order s input).1 = s := by
  unfold create_order at h ⊢
  split at h
  next pid hmiss => rfl
  next hmiss =>
    split at h
    next e2 hsc => rfl
    next hsc => simp at h

theorem create_order_error_shape {s : DBState} {input : OrderCreate} {e : OrderError}
    (h : (create_order s input).2 = .error e) :
    (∃ pid, e = .productNotFound pid) ∨ ∃ pid a r, e = .insufficientStock pid a r := by
  unfold create_order at h
  split at h
  next pid hmiss =>
    refine Or.inl ⟨pid, ?_⟩
    simpa using h.symm
  next hmiss =>
    split at h
    next e2 hsc =>
      have he : e = e2 := by simpa using h.symm
      exact Or.inr (he ▸ stockCheck_shape hsc)
    next hsc => simp at h

theorem create_order_ok_stockOf {s s' : DBState} {input : OrderCreate} {o : Order}
    (h : create_order s input = (s', .ok o)) (pid : Nat) :
    stockOf s'.products pid =
      (stockOf s.products pid).map (fun v => v - requestedQty pid input.items) := by
  obtain ⟨-, hpres, hs'⟩ := create_order_ok h
  subst hs'
  exact applyItems_stockOf s.nextOrderId input.items
    { s with
      orders := s.orders ++ [{ id := s.nextOrderId, status := "pending" }],
      nextOrderId := s.nextOrderId + 1 } hpres pid

theorem create_order_ok_orderItems {s s' : DBState} {input : OrderCreate} {o : Order}
    (h : create_order s input = (s', .ok o)) :
    s'.orderItems = s.orderItems ++ mkItems s.nextOrderId s.products input.items := by
  obtain ⟨-, -, hs'⟩ := create_order_ok h
  subst hs'
  exact applyItems_orderItems _ _ _

theorem create_order_ok_orders {s s' : DBState} {input : OrderCreate} {o : Order}
    (h : create_order s input = (s', .ok o)) :
    s'.orders = s.orders ++ [o] ∧ s'.nextOrderId = s.nextOrderId + 1 := by
  obtain ⟨ho, -, hs'⟩ := create_order_ok h
  subst hs'
  subst ho
  exact ⟨applyItems_orders _ _ _, applyItems_nextOrderId _ _ _⟩

theorem mkItems_of_present {oid : Nat} {ps : List Product} {items : List OrderItemCreate}
    (h : ∀ i ∈ items, (findProduct ps i.product_id).isSome = true) :
    mkItems oid ps items = items.map (fun i =>
      { order_id := oid, product_id := i.product_id, quantity := i.quantity,
        price_at_order := (priceOf ps i.product_id).getD 0 }) := by
  induction items with
  | nil => rfl
  | cons i rest ih =>
    unfold mkItems
    cases hfp : findProduct ps i.product_id with
    | none => exact absurd (h i (by simp)) (by simp [hfp])
    | some p =>
      rw [ih (fun j hj => h j (by simp [hj]))]
      simp [priceOf, hfp]

/-! ### Serialized concurrent-run lemmas -/

theorem create_order_single (pid : Nat) (nm : String) (pr S : Int)
    (ords : List Order) (recs : List OrderItem) (nid : Nat) :
    create_order ⟨[⟨pid, nm, pr, S⟩], ords, recs, nid⟩ (singleItemOrder pid) =
      if S < 1 then
        (⟨[⟨pid, nm, pr, S⟩], ords, recs, nid⟩, .error (.insufficientStock pid S 1))
      else
        (⟨[⟨pid, nm, pr, S - 1⟩], ords ++ [⟨nid, "pending"⟩],
          recs ++ [⟨nid, pid, 1, pr⟩], nid + 1⟩, .ok ⟨nid, "pending"⟩) := by
  by_cases hS : S < 1
  · rw [if_pos hS]
    simp [create_order, product_ids, product_quantities, aggStep, lockProducts,
      firstMissing, findProduct, stockCheck, singleItemOrder, List.foldl, hS,
      OrderStatus.value]
  · rw [if_neg hS]
    simp [create_order, product_ids, product_quantities, aggStep, lockProducts,
      firstMissing, findProduct, stockCheck, applyItems, decrementStock,
      singleItemOrder, List.foldl, hS, OrderStatus.value]

theorem runConcurrent_spec (pid : Nat) (nm : String) (pr : Int) :
    ∀ (N S : Nat) (ords : List Order) (recs : List OrderItem) (nid : Nat),
      ∃ ords' recs' nid',
        runConcurrent pid N ⟨[⟨pid, nm, pr, (S : Int)⟩], ords, recs, nid⟩ =
          ⟨⟨[⟨pid, nm, pr, (S : Int) - (min N S : Nat)⟩], ords', recs', nid'⟩,
            min N S, N - min N S, 0⟩ := by
  intro N
  induction N with
  | zero =>
    intro S ords recs nid
    refine ⟨ords, recs, nid, ?_⟩
    simp [runConcurrent]
  | succ n ih =>
    intro S ords recs nid
    unfold runConcurrent
    rw [create_order_single]
    by_cases hS : (S : Int) < 1
    · have hS0 : S = 0 := by omega
      subst hS0
      rw [if_pos hS]
      obtain ⟨o', r', n', IH⟩ := ih 0 ords recs nid
      simp only [Nat.cast_zero] at IH ⊢
      rw [IH]
      simp
    · rw [if_neg hS]
      have hS1 : 1 ≤ S := by omega
      have hcast : (S : Int) - 1 = ((S - 1 : Nat) : Int) := by omega
      rw [hcast]
      obtain ⟨o', r', n', IH⟩ :=
        ih (S - 1) (ords ++ [⟨nid, "pending"⟩]) (recs ++ [⟨nid, pid, 1, pr⟩]) (nid + 1)
      refine ⟨o', r', n', ?_⟩
      simp only [IH]
      simp only [RunResult.mk.injEq, DBState.mk.injEq, List.cons.injEq,
        Product.mk.injEq, and_true, true_and]
      omega

/-! ### `update_order_status` lemmas -/

theorem findOrder_map_update (orders : List Order) (oid : Nat) (st : String) (x : Nat) :
    (orders.map (fun o => if o.id == oid then { o with status := st } else o)).find?
        (fun o => o.id == x) =
      (orders.find? (fun o => o.id == x)).map
        (fun o => if o.id == oid then { o with status := st } else o) := by
  apply find?_map_of_key
  intro a
  by_cases hb : a.id == oid <;> simp [hb]

theorem update_order_status_spec (s : DBState) (oid : Nat) (ns : OrderStatus) {ord : Order}
    (hfind : s.orders.find? (fun o => o.id == oid) = some ord) :
    if ns ∈ VALID_TRANSITIONS ((parseStatus ord.status).getD .pending) then
      update_order_status s oid ns =
        ({ s with orders := (s.orders.map (fun o =>
            if o.id == oid then { o with status := ns.value } else o)) },
         .ok { ord with status := ns.value })
    else
      update_order_status s oid ns = (s, .error (.invalidStatusTransition ord.status ns.value)) := by
  by_cases hmem : ns ∈ VALID_TRANSITIONS ((parseStatus ord.status).getD .pending)
  · rw [if_pos hmem]
    unfold update_order_status
    rw [hfind]
    simp only [hmem, if_true]
  · rw [if_neg hmem]
    unfold update_order_status
    rw [hfind]
    simp only [hmem, if_false]

theorem update_order_status_orderItems (s : DBState) (oid : Nat) (ns : OrderStatus) :
    (update_order_status s oid ns).1.orderItems = s.orderItems := by
  unfold update_order_status
  cases hf : s.orders.find? (fun o => o.id == oid) with
  | none => rfl
  | some ord =>
    dsimp only
    split <;> rfl

/-! ### Claim theorems -/

/-- C1: For every successful `createOrder` call, the post-call
`stock_quantity` of every referenced product equals its pre-call value
minus the aggregated requested quantity of the order for that product (the sum
of the quantities over all input lines naming that product), exactly. -/
theorem createOrder_stock_decrement {s s' : DBState} {input : OrderCreate} {o : Order}
    (h : create_order s input = (s', .ok o)) (pid : Nat)
    (href : pid ∈ input.items.map (fun i => i.product_id)) :
    ∃ p p', findProduct s.products pid = some p ∧ findProduct s'.products pid = some p'
      ∧ p'.stock_quantity = p.stock_quantity - requestedQty pid input.items := by
  obtain ⟨-, hpres, -⟩ := create_order_ok h
  obtain ⟨i, hi, hip⟩ := List.mem_map.mp href
  have hsome := hpres i hi
  rw [hip] at hsome
  obtain ⟨p, hp⟩ := Option.isSome_iff_exists.mp hsome
  have hst := create_order_ok_stockOf h pid
  rw [show stockOf s.products pid = some p.stock_quantity from by simp [stockOf, hp]] at hst
  unfold stockOf at hst
  cases hp' : findProduct s'.products pid with
  | none =>
    rw [hp'] at hst
    simp at hst
  | some p' =>
    rw [hp'] at hst
    refine ⟨p, p', hp, rfl, ?_⟩
    simpa using hst

theorem createOrder_stock_decrement_witness :
    ∃ p p', findProduct [⟨1, "w", 500, 10⟩] 1 = some p
      ∧ findProduct [⟨1, "w", 500, 3⟩] 1 = some p'
      ∧ p'.stock_quantity = p.stock_quantity - requestedQty 1 [⟨1, 3⟩, ⟨1, 4⟩] :=
  @createOrder_stock_decrement ⟨[⟨1, "w", 500, 10⟩], [], [], 1⟩
    ⟨[⟨1, "w", 500, 3⟩], [⟨1, "pending"⟩], [⟨1, 1, 3, 500⟩, ⟨1, 1, 4, 500⟩], 2⟩
    ⟨[⟨1, 3⟩, ⟨1, 4⟩]⟩ ⟨1, "pending"⟩ rfl 1 (by decide)

/-- C2: Every failing `createOrder` call (`ProductNotFound` or
`InsufficientStock`) leaves the entire session state — all product rows,
all orders, all order items — exactly as it was before the call, and every
failure is one of those two errors: strict all-or-nothing behaviour, with
no partial decrement and no persisted `Order`/`OrderItem`. -/
theorem createOrder_failure_atomic {s : DBState} {input : OrderCreate} {e : OrderError}
    (h : (create_order s input).2 = .error e) :
    (create_order s input).1 = s
    ∧ (create_order s input).1.products = s.products
    ∧ (create_order s input).1.orders = s.orders
    ∧ (create_order s input).1.orderItems = s.orderItems
    ∧ ((∃ pid, e = .productNotFound pid) ∨ ∃ pid a r, e = .insufficientStock pid a r) := by
  have hs := create_order_error_state h
  exact ⟨hs, by rw [hs], by rw [hs], by rw [hs], create_order_error_shape h⟩

theorem createOrder_failure_atomic_witness :
    (create_order ⟨[⟨1, "w", 500, 5⟩], [], [], 1⟩ ⟨[⟨1, 7⟩]⟩).1 = ⟨[⟨1, "w", 500, 5⟩], [], [], 1⟩
    ∧ (create_order ⟨[⟨1, "w", 500, 5⟩], [], [], 1⟩ ⟨[⟨1, 7⟩]⟩).1.products = [⟨1, "w", 500, 5⟩]
    ∧ (create_order ⟨[⟨1, "w", 500, 5⟩], [], [], 1⟩ ⟨[⟨1, 7⟩]⟩).1.orders = []
    ∧ (create_order ⟨[⟨1, "w", 500, 5⟩], [], [], 1⟩ ⟨[⟨1, 7⟩]⟩).1.orderItems = []
    ∧ ((∃ pid, OrderError.insufficientStock 1 5 7 = .productNotFound pid)
        ∨ ∃ pid a r, OrderError.insufficientStock 1 5 7 = .insufficientStock pid a r) :=
  @createOrder_failure_atomic ⟨[⟨1, "w", 500, 5⟩], [], [], 1⟩ ⟨[⟨1, 7⟩]⟩
    (.insufficientStock 1 5 7) rfl

/-- C3: For an existing order whose stored status parses to one of the
three recognized statuses, `updateStatus` succeeds exactly on the pairs
(pending, shipped) and (pending, cancelled); every other pair — including
self-transitions and transitions out of `shipped`/`cancelled` — fails with
`InvalidTransition(current, requested)`. -/
theorem updateStatus_transition_table {s : DBState} {oid : Nat} {ord : Order}
    (ns cur : OrderStatus)
    (hfind : s.orders.find? (fun o => o.id == oid) = some ord)
    (hcur : parseStatus ord.status = some cur) :
    ((∃ o', (update_order_status s oid ns).2 = .ok o') ↔
      cur = .pending ∧ (ns = .shipped ∨ ns = .cancelled))
    ∧ (¬ (cur = .pending ∧ (ns = .shipped ∨ ns = .cancelled)) →
        (update_order_status s oid ns).2 =
          .error (.invalidStatusTransition ord.status ns.value)) := by
  have hspec := update_order_status_spec s oid ns hfind
  rw [hcur] at hspec
  cases cur <;> cases ns <;>
    simp only [Option.getD_some, VALID_TRANSITIONS, List.mem_cons,
      List.mem_singleton, List.not_mem_nil, or_false, false_or, if_true, if_false,
      reduceCtorEq, or_self, if_neg, not_false_eq_true, iff_false, iff_true] at hspec <;>
    simp_all

theorem updateStatus_transition_table_witness :
    ((∃ o', (update_order_status ⟨[], [⟨7, "pending"⟩], [], 1⟩ 7 .shipped).2 = .ok o') ↔
      OrderStatus.pending = .pending
        ∧ (OrderStatus.shipped = .shipped ∨ OrderStatus.shipped = .cancelled))
    ∧ (¬ (OrderStatus.pending = .pending
          ∧ (OrderStatus.shipped = .shipped ∨ OrderStatus.shipped = .cancelled)) →
        (update_order_status ⟨[], [⟨7, "pending"⟩], [], 1⟩ 7 .shipped).2 =
          .error (.invalidStatusTransition "pending" OrderStatus.shipped.value)) :=
  @updateStatus_transition_table ⟨[], [⟨7, "pending"⟩], [], 1⟩ 7 ⟨7, "pending"⟩
    .shipped .pending rfl rfl

/-- C4: An input listing the same product in several lines behaves, for
validation and for the resulting per-product stock, identically to the
input listing each product once with the summed quantity — the result
value (success order or typed error) coincides — while the original input
still yields one `OrderItem` row per original line, each carrying the
quantity of its own line. -/
theorem createOrder_duplicate_lines_equiv (s : DBState) (input : OrderCreate) :
    (create_order s input).2 = (create_order s (aggregatedInput input)).2
    ∧ (∀ pid, stockOf (create_order s input).1.products pid =
        stockOf (create_order s (aggregatedInput input)).1.products pid)
    ∧ (∀ o : Order, (create_order s input).2 = .ok o →
        ∃ recs, (create_order s input).1.orderItems = s.orderItems ++ recs
          ∧ recs.length = input.items.length
          ∧ ∀ k (hk : k < recs.length) (hk' : k < input.items.length),
              (recs.get ⟨k, hk⟩).product_id = (input.items.get ⟨k, hk'⟩).product_id
              ∧ (recs.get ⟨k, hk⟩).quantity = (input.items.get ⟨k, hk'⟩).quantity) := by
  have hpq : product_quantities (aggregatedInput input).items = product_quantities input.items :=
    product_quantities_agg_idem input.items
  have hpids : product_ids (aggregatedInput input).items = product_ids input.items := by
    unfold product_ids
    rw [hpq]
  have hres : (create_order s input).2 = (create_order s (aggregatedInput input)).2 := by
    unfold create_order
    rw [hpq, hpids]
    cases hm : firstMissing (lockProducts s (product_ids input.items)) (product_ids input.items) with
    | some pid => rfl
    | none =>
      cases hsc : stockCheck (lockProducts s (product_ids input.items))
          (product_quantities input.items) with
      | some e => rfl
      | none => rfl
  refine ⟨hres, ?_, ?_⟩
  · intro pid
    cases hr : (create_order s input).2 with
    | error e =>
      have hr2 : (create_order s (aggregatedInput input)).2 = .error e := by rw [← hres, hr]
      rw [create_order_error_state hr, create_order_error_state hr2]
    | ok o =>
      have h1 : create_order s input = ((create_order s input).1, .ok o) := by
        rw [← hr, Prod.mk.eta]
      have hr2 : (create_order s (aggregatedInput input)).2 = .ok o := by rw [← hres, hr]
      have h2 : create_order s (aggregatedInput input) =
          ((create_order s (aggregatedInput input)).1, .ok o) := by
        rw [← hr2, Prod.mk.eta]
      rw [create_order_ok_stockOf h1 pid, create_order_ok_stockOf h2 pid,
        requestedQty_aggregatedInput]
  · intro o ho
    have h1 : create_order s input = ((create_order s input).1, .ok o) := by
      rw [← ho, Prod.mk.eta]
    obtain ⟨-, hpres, -⟩ := create_order_ok h1
    refine ⟨mkItems s.nextOrderId s.products input.items, create_order_ok_orderItems h1, ?_, ?_⟩
    · rw [mkItems_of_present hpres]
      exact List.length_map _ _
    · intro k hk hk'
      rw [mkItems_of_present hpres] at hk
      constructor <;>
        simp [mkItems_of_present hpres, List.get_map]

theorem createOrder_duplicate_lines_equiv_witness :
    ∃ recs,
      (create_order ⟨[⟨1, "w", 500, 10⟩], [], [], 1⟩ ⟨[⟨1, 3⟩, ⟨1, 3⟩]⟩).1.orderItems =
        ([] : List OrderItem) ++ recs
      ∧ recs.length = ([⟨1, 3⟩, ⟨1, 3⟩] : List OrderItemCreate).length
      ∧ ∀ k (hk : k < recs.length) (hk' : k < ([⟨1, 3⟩, ⟨1, 3⟩] : List OrderItemCreate).length),
          (recs.get ⟨k, hk⟩).product_id =
            (([⟨1, 3⟩, ⟨1, 3⟩] : List OrderItemCreate).get ⟨k, hk'⟩).product_id
          ∧ (recs.get ⟨k, hk⟩).quantity =
            (([⟨1, 3⟩, ⟨1, 3⟩] : List OrderItemCreate).get ⟨k, hk'⟩).quantity :=
  (createOrder_duplicate_lines_equiv ⟨[⟨1, "w", 500, 10⟩], [], [], 1⟩
    ⟨[⟨1, 3⟩, ⟨1, 3⟩]⟩).2.2 ⟨1, "pending"⟩ rfl

/-- C5: N calls, each requesting quantity 1 of one product with stock S,
executed under the mutual exclusion that the `FOR UPDATE` row lock grants
(any concurrent schedule is some serial order of the atomic calls), yield
exactly `min N S` successes, `N − min N S` `InsufficientStock` failures,
no other failure, and final stock `S − min N S`, which is never
negative. -/
theorem concurrent_createOrder_no_oversell (pid : Nat) (nm : String) (pr : Int) (N S : Nat) :
    ∃ ords recs nid,
      runConcurrent pid N (singleProductState pid nm pr (S : Int)) =
        ⟨⟨[⟨pid, nm, pr, (S : Int) - (min N S : Nat)⟩], ords, recs, nid⟩,
          min N S, N - min N S, 0⟩
      ∧ (0 : Int) ≤ (S : Int) - (min N S : Nat) := by
  obtain ⟨o', r', n', h⟩ := runConcurrent_spec pid nm pr N S [] [] 1
  exact ⟨o', r', n', h, by omega⟩

/-- C6 counterexample: a `createOrder` input whose only line has quantity
−3 ≤ 0 is not rejected by the engine: the call succeeds, persists the
order and its item, and changes the stock of the product (5 becomes 8). -/
theorem engine_accepts_nonpositive_quantity_cex :
    ((⟨1, -3⟩ : OrderItemCreate) ∈ (⟨[⟨1, -3⟩]⟩ : OrderCreate).items
      ∧ (⟨1, -3⟩ : OrderItemCreate).quantity ≤ 0)
    ∧ (create_order ⟨[⟨1, "w", 500, 5⟩], [], [], 1⟩ ⟨[⟨1, -3⟩]⟩).2 = .ok ⟨1, "pending"⟩
    ∧ (create_order ⟨[⟨1, "w", 500, 5⟩], [], [], 1⟩ ⟨[⟨1, -3⟩]⟩).1.products = [⟨1, "w", 500, 8⟩]
    ∧ (create_order ⟨[⟨1, "w", 500, 5⟩], [], [], 1⟩ ⟨[⟨1, -3⟩]⟩).1.orders = [⟨1, "pending"⟩]
    ∧ (create_order ⟨[⟨1, "w", 500, 5⟩], [], [], 1⟩ ⟨[⟨1, -3⟩]⟩).1.orderItems =
        [⟨1, 1, -3, 500⟩] :=
  ⟨⟨by decide, by decide⟩, rfl, rfl, rfl, rfl⟩

/-- C6 amended: quantity ≤ 0 is rejected only by the upstream pydantic
schema (`OrderItemCreate.quantity: gt=0`), whose validated type is the
input type of the engine; the engine itself performs no quantity check (see the
counterexample, where it accepts the line and adjusts stock by the signed
quantity). -/
theorem schema_rejects_nonpositive_quantity (oc : OrderCreate) (i : OrderItemCreate)
    (hmem : i ∈ oc.items) (hq : i.quantity ≤ 0) : validOrderCreate oc = false := by
  have hi : validOrderItemCreate i = false := by
    unfold validOrderItemCreate
    have hd : decide (0 < i.quantity) = false := by
      simp
      omega
    simp [hd]
  have hall : oc.items.all validOrderItemCreate = false :=
    List.all_eq_false.mpr ⟨i, hmem, by simp [hi]⟩
  simp [validOrderCreate, hall]

theorem schema_rejects_nonpositive_quantity_witness :
    validOrderCreate ⟨[⟨1, -3⟩]⟩ = false :=
  schema_rejects_nonpositive_quantity ⟨[⟨1, -3⟩]⟩ ⟨1, -3⟩ (by decide) (by decide)

/-- C7: at the failing input `items = []` the engine does not fail with
`EmptyOrder` (that error class is never raised anywhere in the service):
the call succeeds and persists a zero-item order — order ⟨1, "pending"⟩
is created, no order item exists, and stock is untouched.  This
contradicts the stated invariant that a zero-item order is never
persisted (only the upstream schema `min_length=1` prevents it). -/
theorem createOrder_empty_items_persists_zero_item_order :
    create_order ⟨[⟨1, "w", 500, 5⟩], [], [], 1⟩ ⟨[]⟩ =
      (⟨[⟨1, "w", 500, 5⟩], [⟨1, "pending"⟩], [], 2⟩, .ok ⟨1, "pending"⟩) := rfl

/-- C8 counterexample: the id list handed to the single `FOR UPDATE`
query is in first-occurrence order of the input lines, not ascending:
lines for products 5 then 3 give [5, 3] (not sorted ascending), while the
same product set in the other input order gives [3, 5] — so the order is
not "ascending by product id regardless of the order of the input
lines". -/
theorem lock_order_not_ascending_cex :
    product_ids [⟨5, 1⟩, ⟨3, 1⟩] = [5, 3]
    ∧ product_ids [⟨3, 1⟩, ⟨5, 1⟩] = [3, 5]
    ∧ ([5, 3] : List Nat) ≠ [3, 5]
    ∧ ¬ 5 ≤ 3 := by decide

/-- C8 amended: the engine locks exactly the set of distinct referenced
product rows in one `FOR UPDATE` query: the id list contains each
referenced product id exactly once (no duplicates, nothing else); its
order is the first-occurrence order of the input lines, and no
ascending-by-id ordering is imposed. -/
theorem lock_set_exactly_distinct_products (items : List OrderItemCreate) :
    (product_ids items).Nodup
    ∧ ∀ pid, pid ∈ product_ids items ↔ pid ∈ items.map (fun i => i.product_id) :=
  ⟨nodup_product_ids items, fun pid => mem_product_ids pid items⟩

theorem lock_set_exactly_distinct_products_witness :
    (product_ids [⟨5, 1⟩, ⟨3, 1⟩, ⟨5, 2⟩]).Nodup
    ∧ ∀ pid, pid ∈ product_ids [⟨5, 1⟩, ⟨3, 1⟩, ⟨5, 2⟩] ↔
        pid ∈ ([⟨5, 1⟩, ⟨3, 1⟩, ⟨5, 2⟩] : List OrderItemCreate).map (fun i => i.product_id) :=
  lock_set_exactly_distinct_products [⟨5, 1⟩, ⟨3, 1⟩, ⟨5, 2⟩]

/-- C9: on every successful `createOrder` call, the appended order items
are exactly one per input line, and the `price_at_order` of each is the
price of the product of its line as read from the pre-call (locked) product
table; and no later `updateStatus` call ever modifies the order-item
table, so the snapshot stays frozen (no other write path to
`price_at_order` exists in the service layer). -/
theorem price_at_order_snapshot {s s' : DBState} {input : OrderCreate} {o : Order}
    (h : create_order s input = (s', .ok o)) :
    (∃ recs, s'.orderItems = s.orderItems ++ recs
      ∧ recs.length = input.items.length
      ∧ ∀ k (hk : k < recs.length) (hk' : k < input.items.length),
          ∃ p, findProduct s.products ((input.items.get ⟨k, hk'⟩).product_id) = some p
            ∧ (recs.get ⟨k, hk⟩).price_at_order = p.price)
    ∧ (∀ oid ns, (update_order_status s' oid ns).1.orderItems = s'.orderItems) := by
  obtain ⟨-, hpres, -⟩ := create_order_ok h
  constructor
  · refine ⟨mkItems s.nextOrderId s.products input.items,
      create_order_ok_orderItems h, ?_, ?_⟩
    · rw [mkItems_of_present hpres]
      exact List.length_map _ _
    · intro k hk hk'
      have hik : input.items.get ⟨k, hk'⟩ ∈ input.items := List.get_mem _ _ hk'
      obtain ⟨p, hp⟩ := Option.isSome_iff_exists.mp (hpres _ hik)
      refine ⟨p, hp, ?_⟩
      rw [mkItems_of_present hpres] at hk
      simp only [List.get_eq_getElem] at hp ⊢
      simp [mkItems_of_present hpres, List.getElem_map, priceOf, hp]
  · intro oid ns
    exact update_order_status_orderItems s' oid ns

theorem price_at_order_snapshot_witness :
    (∃ recs, ([⟨1, 1, 3, 500⟩] : List OrderItem) = ([] : List OrderItem) ++ recs
      ∧ recs.length = ([⟨1, 3⟩] : List OrderItemCreate).length
      ∧ ∀ k (hk : k < recs.length) (hk' : k < ([⟨1, 3⟩] : List OrderItemCreate).length),
          ∃ p, findProduct [⟨1, "w", 500, 10⟩]
              ((([⟨1, 3⟩] : List OrderItemCreate).get ⟨k, hk'⟩).product_id) = some p
            ∧ (recs.get ⟨k, hk⟩).price_at_order = p.price)
    ∧ (∀ oid ns,
        (update_order_status ⟨[⟨1, "w", 500, 7⟩], [⟨1, "pending"⟩], [⟨1, 1, 3, 500⟩], 2⟩
          oid ns).1.orderItems = [⟨1, 1, 3, 500⟩]) :=
  @price_at_order_snapshot ⟨[⟨1, "w", 500, 10⟩], [], [], 1⟩
    ⟨[⟨1, "w", 500, 7⟩], [⟨1, "pending"⟩], [⟨1, 1, 3, 500⟩], 2⟩
    ⟨[⟨1, 3⟩]⟩ ⟨1, "pending"⟩ rfl

/-- C10: for an existing order whose stored status string is none of the
three recognized values, `updateStatus` silently coerces the current
status to `pending` on read: requesting `shipped` or `cancelled` succeeds
and persists the new status on the order row, while requesting `pending`
fails with `InvalidTransition(storedString, "pending")`. -/
theorem updateStatus_unknown_status_coerced_pending {s : DBState} {oid : Nat} {ord : Order}
    (ns : OrderStatus)
    (hfind : s.orders.find? (fun o => o.id == oid) = some ord)
    (hbad : parseStatus ord.status = none) :
    ((ns = .shipped ∨ ns = .cancelled) →
      (update_order_status s oid ns).2 = .ok { ord with status := ns.value }
      ∧ (update_order_status s oid ns).1.orders.find? (fun o => o.id == oid) =
          some { ord with status := ns.value })
    ∧ (ns = .pending →
        (update_order_status s oid ns).2 =
          .error (.invalidStatusTransition ord.status "pending")) := by
  have hordid : (ord.id == oid) = true := by simpa using List.find?_some hfind
  have hspec := update_order_status_spec s oid ns hfind
  rw [hbad] at hspec
  constructor
  · rintro (rfl | rfl) <;>
    · rw [if_pos (by simp [VALID_TRANSITIONS, Option.getD])] at hspec
      rw [hspec]
      refine ⟨rfl, ?_⟩
      show (s.orders.map _).find? _ = _
      rw [findOrder_map_update, hfind]
      simp only [Option.map_some']
      rw [if_pos hordid]
  · rintro rfl
    rw [if_neg (by simp [VALID_TRANSITIONS, Option.getD])] at hspec
    rw [hspec]
    rfl

theorem updateStatus_unknown_status_coerced_pending_witness :
    ((OrderStatus.shipped = .shipped ∨ OrderStatus.shipped = .cancelled) →
      (update_order_status ⟨[], [⟨7, "garbled"⟩], [], 1⟩ 7 .shipped).2 =
        .ok ⟨7, OrderStatus.shipped.value⟩
      ∧ (update_order_status ⟨[], [⟨7, "garbled"⟩], [], 1⟩ 7 .shipped).1.orders.find?
          (fun o => o.id == 7) = some ⟨7, OrderStatus.shipped.value⟩)
    ∧ (OrderStatus.shipped = .pending →
        (update_order_status ⟨[], [⟨7, "garbled"⟩], [], 1⟩ 7 .shipped).2 =
          .error (.invalidStatusTransition "garbled" "pending")) :=
  @updateStatus_unknown_status_coerced_pending ⟨[], [⟨7, "garbled"⟩], [], 1⟩ 7
    ⟨7, "garbled"⟩ .shipped rfl rfl

example :
    create_order ⟨[⟨1, "w", 500, 10⟩], [], [], 1⟩ ⟨[⟨1, 3⟩, ⟨1, 4⟩]⟩ =
      (⟨[⟨1, "w", 500, 3⟩], [⟨1, "pending"⟩],
        [⟨1, 1, 3, 500⟩, ⟨1, 1, 4, 500⟩], 2⟩, .ok ⟨1, "pending"⟩) := rfl

example :
    (create_order ⟨[⟨1, "w", 500, 10⟩], [], [], 1⟩ ⟨[⟨1, 3⟩, ⟨2, 4⟩]⟩).2 =
      .error (.productNotFound 2) := rfl

example :
    (create_order ⟨[⟨1, "w", 500, 5⟩], [], [], 1⟩ ⟨[⟨1, 3⟩, ⟨1, 4⟩]⟩).2 =
      .error (.insufficientStock 1 5 7) := rfl

example :
    (update_order_status ⟨[], [⟨7, "pending"⟩], [], 1⟩ 7 .shipped).2 =
      .ok ⟨7, "shipped"⟩ := rfl

example :
    (update_order_status ⟨[], [⟨7, "shipped"⟩], [], 1⟩ 7 .shipped).2 =
      .error (.invalidStatusTransition "shipped" "shipped") := rfl

example :
    (update_order_status ⟨[], [⟨7, "garbled"⟩], [], 1⟩ 7 .shipped).2 =
      .ok ⟨7, "shipped"⟩ := rfl

end OrderApp
